import Mathlib

/-!
Verification development for the dp-imagenet training engine
(`imagenet/imagenet_train.py`, `imagenet/util.py`).

The Python source is shallowly embedded: tensors are flattened to lists of
scalars (all tensor operations involved are elementwise), exact arithmetic
over `ℚ` models floating-point accumulation where only the accumulation
order matters, and `ℝ` models real-valued formulas involving `sqrt`/`cos`.
Fallible code (Python `assert` / `raise`) is embedded with `Except`.
-/

/-! ### Gradient accumulation wrapper

Embedding of `GradientAccumulationOptimizerWrapper` (imagenet_train.py,
lines 71-85).  The wrapped optimizer is observed through a call trace:
`calls` records every `(lr, grads)` pair handed to the wrapped optimizer,
in order. -/

/-- State of `GradientAccumulationOptimizerWrapper`: the accumulation
buffers (`self.accum`, one scalar per trainable variable) plus the trace of
invocations of the wrapped optimizer. -/
structure AccumState where
  accum : List ℚ
  calls : List (ℚ × List ℚ)
  deriving DecidableEq, Repr

/-- One pass of the buffer-update loop `a.value += g * self.scaler`
(line 80-81), over all buffers at once. -/
def accumStep (scaler : ℚ) (a g : List ℚ) : List ℚ :=
  List.zipWith (fun x y => x + y * scaler) a g

/-- Embedding of `GradientAccumulationOptimizerWrapper.__call__`
(lines 78-85): assert length match, add scaled gradients into the buffers,
and if `applyUpdates` invoke the wrapped optimizer on the buffer values and
then zero every buffer. -/
def GradientAccumulationOptimizerWrapper.call (scaler lr : ℚ) (grads : List ℚ)
    (applyUpdates : Bool) (s : AccumState) : Except String AccumState :=
  if grads.length = s.accum.length then
    if applyUpdates then
      .ok ⟨(accumStep scaler s.accum grads).map (fun _ => 0),
           s.calls ++ [(lr, accumStep scaler s.accum grads)]⟩
    else
      .ok ⟨accumStep scaler s.accum grads, s.calls⟩
  else .error "Expecting as many gradients as trainable variables"

/-- Feeding a sequence of per-microbatch gradient lists through the wrapper,
with `apply_updates` true only on the last call (the accumulation pattern of
the training loop). -/
def feedSequence (scaler lr : ℚ) : List (List ℚ) → AccumState → Except String AccumState
  | [], s => .ok s
  | [g], s => GradientAccumulationOptimizerWrapper.call scaler lr g true s
  | g :: g2 :: rest, s =>
    (GradientAccumulationOptimizerWrapper.call scaler lr g false s).bind
      (feedSequence scaler lr (g2 :: rest))

/-- Elementwise sum of a list of gradient lists (each of length `n`). -/
def sumGrads (n : ℕ) : List (List ℚ) → List ℚ
  | [] => List.replicate n 0
  | g :: rest => List.zipWith (· + ·) g (sumGrads n rest)

/-- Modelled from the spec words: the elementwise mean of the gradient
lists, i.e. their elementwise sum divided by their count. -/
def specElementwiseMean (n : ℕ) (gs : List (List ℚ)) : List ℚ :=
  (sumGrads n gs).map (fun x => x / (gs.length : ℚ))

/-- Replaying a call trace against an optimizer update function. -/
def applyTrace {σ : Type} (opt : ℚ → List ℚ → σ → σ)
    (calls : List (ℚ × List ℚ)) (st : σ) : σ :=
  calls.foldl (fun st c => opt c.1 c.2 st) st

example :
    GradientAccumulationOptimizerWrapper.call (1/2) 1 [2, 4] true ⟨[1, 1], []⟩
      = .ok ⟨[0, 0], [(1, [2, 3])]⟩ := by
  norm_num [GradientAccumulationOptimizerWrapper.call, accumStep]

example :
    feedSequence (1/2) 1 [[1, 3], [3, 5]] ⟨[0, 0], []⟩
      = .ok ⟨[0, 0], [(1, [2, 4])]⟩ := by
  norm_num [feedSequence, GradientAccumulationOptimizerWrapper.call, accumStep,
    Except.bind]

example : specElementwiseMean 2 [[1, 3], [3, 5]] = [2, 4] := by
  norm_num [specElementwiseMean, sumGrads, List.replicate]

lemma accumStep_length (c : ℚ) (a g : List ℚ) :
    (accumStep c a g).length = min a.length g.length := by
  simp [accumStep]

lemma map_to_zero (l : List ℚ) :
    l.map (fun _ => (0 : ℚ)) = List.replicate l.length 0 := by
  induction l with
  | nil => rfl
  | cons x t ih => simp [ih, List.replicate_succ]

lemma accumStep_accumStep (c : ℚ) :
    ∀ a g s : List ℚ,
      accumStep c (accumStep c a g) s = accumStep c a (List.zipWith (· + ·) g s) := by
  intro a
  induction a with
  | nil => intro g s; simp [accumStep]
  | cons x at' ih =>
    intro g s
    cases g with
    | nil => simp [accumStep]
    | cons y gt =>
      cases s with
      | nil => simp [accumStep]
      | cons z st =>
        simp only [accumStep, List.zipWith_cons_cons] at *
        refine congrArg₂ _ (by ring) (ih gt st)

lemma zipWith_add_replicate_zero :
    ∀ g : List ℚ, List.zipWith (· + ·) g (List.replicate g.length 0) = g := by
  intro g
  induction g with
  | nil => rfl
  | cons x t ih => simp [List.replicate_succ, ih]

lemma accumStep_replicate_zero (c : ℚ) :
    ∀ (g : List ℚ) (n : ℕ), g.length = n →
      accumStep c (List.replicate n 0) g = g.map (fun x => x * c) := by
  intro g
  induction g with
  | nil => intro n _; simp [accumStep]
  | cons x t ih =>
    intro n hn
    cases n with
    | zero => simp at hn
    | succ m =>
      simp only [List.length_cons, Nat.succ.injEq] at hn
      have h2 := ih m hn
      simp only [accumStep] at h2 ⊢
      simp [List.replicate_succ, h2]

lemma sumGrads_length (n : ℕ) :
    ∀ gs : List (List ℚ), (∀ g ∈ gs, g.length = n) → (sumGrads n gs).length = n := by
  intro gs
  induction gs with
  | nil => intro _; simp [sumGrads]
  | cons g rest ih =>
    intro h
    have hg : g.length = n := h g (by simp)
    have hr := ih (fun x hx => h x (by simp [hx]))
    simp [sumGrads, hg, hr]

lemma wrapper_call_true (scaler lr : ℚ) (grads : List ℚ) (s : AccumState)
    (h : grads.length = s.accum.length) :
    GradientAccumulationOptimizerWrapper.call scaler lr grads true s
      = .ok ⟨List.replicate s.accum.length 0,
             s.calls ++ [(lr, accumStep scaler s.accum grads)]⟩ := by
  unfold GradientAccumulationOptimizerWrapper.call
  rw [if_pos h, if_pos rfl, map_to_zero, accumStep_length, h, min_self]

lemma wrapper_call_false (scaler lr : ℚ) (grads : List ℚ) (s : AccumState)
    (h : grads.length = s.accum.length) :
    GradientAccumulationOptimizerWrapper.call scaler lr grads false s
      = .ok ⟨accumStep scaler s.accum grads, s.calls⟩ := by
  unfold GradientAccumulationOptimizerWrapper.call
  rw [if_pos h]
  rfl

/-- Core run lemma: feeding the gradient lists `gs` one at a time with
`apply_updates` true only on the last call accumulates the scaled
elementwise sum, hands it to the wrapped optimizer exactly once, and leaves
zeroed buffers. -/
lemma feedSequence_spec (scaler lr : ℚ) (gs : List (List ℚ)) :
    ∀ (a : List ℚ) (cs : List (ℚ × List ℚ)),
      gs ≠ [] → (∀ g ∈ gs, g.length = a.length) →
      feedSequence scaler lr gs ⟨a, cs⟩
        = .ok ⟨List.replicate a.length 0,
               cs ++ [(lr, accumStep scaler a (sumGrads a.length gs))]⟩ := by
  induction gs with
  | nil => intro a cs hne _; exact absurd rfl hne
  | cons g rest ih =>
    intro a cs _ hlen
    have hg : g.length = a.length := hlen g (by simp)
    cases rest with
    | nil =>
      rw [show feedSequence scaler lr [g] ⟨a, cs⟩
            = GradientAccumulationOptimizerWrapper.call scaler lr g true ⟨a, cs⟩ from rfl,
        wrapper_call_true scaler lr g ⟨a, cs⟩ hg]
      refine congrArg Except.ok (congrArg₂ AccumState.mk rfl ?_)
      refine congrArg (fun v => cs ++ [(lr, accumStep scaler a v)]) ?_
      show g = List.zipWith (· + ·) g (List.replicate a.length 0)
      rw [← hg, zipWith_add_replicate_zero]
    | cons g2 rest2 =>
      have hstep : (accumStep scaler a g).length = a.length := by
        rw [accumStep_length, hg, min_self]
      have hlen2 : ∀ x ∈ g2 :: rest2, x.length = (accumStep scaler a g).length := by
        intro x hx
        rw [hstep]; exact hlen x (by simp [hx])
      rw [show feedSequence scaler lr (g :: g2 :: rest2) ⟨a, cs⟩
            = (GradientAccumulationOptimizerWrapper.call scaler lr g false ⟨a, cs⟩).bind
                (feedSequence scaler lr (g2 :: rest2)) from rfl,
        wrapper_call_false scaler lr g ⟨a, cs⟩ hg]
      show feedSequence scaler lr (g2 :: rest2) ⟨accumStep scaler a g, cs⟩ = _
      rw [ih (accumStep scaler a g) cs (by simp) hlen2, hstep]
      refine congrArg Except.ok (congrArg₂ AccumState.mk rfl ?_)
      refine congrArg (fun v => cs ++ [(lr, v)]) ?_
      rw [accumStep_accumStep]
      rfl

/-- C1: with `scaler = 1/k`, feeding `k` gradient lists through the
accumulation wrapper with `apply_updates` true only on the `k`-th call
invokes the wrapped optimizer exactly once, on exactly the elementwise mean
of the `k` gradient lists, and replaying that call trace against any
optimizer update function equals one direct optimizer call on the mean. -/
theorem accumulation_equivalence (lr : ℚ) (n : ℕ) (gs : List (List ℚ))
    (hne : gs ≠ []) (hlen : ∀ g ∈ gs, g.length = n) :
    feedSequence (1 / (gs.length : ℚ)) lr gs ⟨List.replicate n 0, []⟩
      = .ok ⟨List.replicate n 0, [(lr, specElementwiseMean n gs)]⟩
  ∧ ∀ (σ : Type) (opt : ℚ → List ℚ → σ → σ) (st : σ),
      applyTrace opt [(lr, specElementwiseMean n gs)] st
        = opt lr (specElementwiseMean n gs) st := by
  constructor
  · have hlen' : ∀ g ∈ gs, g.length = (List.replicate n (0 : ℚ)).length := by
      simpa using hlen
    rw [feedSequence_spec _ _ _ _ _ hne hlen']
    simp only [List.length_replicate, List.nil_append]
    refine congrArg Except.ok (congrArg₂ AccumState.mk rfl ?_)
    refine congrArg (fun v => [(lr, v)]) ?_
    rw [accumStep_replicate_zero _ _ _ (sumGrads_length n gs hlen)]
    simp only [specElementwiseMean, mul_one_div]
  · intro σ opt st
    rfl

/-- Witness for `accumulation_equivalence` at `k = 2`, `n = 2`,
gradients `[1,3]` and `[3,5]`, learning rate `7`. -/
theorem accumulation_equivalence_witness :
    (([[(1 : ℚ), 3], [3, 5]] : List (List ℚ)) ≠ []
      ∧ ∀ g ∈ ([[(1 : ℚ), 3], [3, 5]] : List (List ℚ)), g.length = 2)
    ∧ (feedSequence (1 / (([[(1 : ℚ), 3], [3, 5]] : List (List ℚ)).length : ℚ)) 7
          [[1, 3], [3, 5]] ⟨List.replicate 2 0, []⟩
        = .ok ⟨List.replicate 2 0, [(7, specElementwiseMean 2 [[1, 3], [3, 5]])]⟩
      ∧ ∀ (σ : Type) (opt : ℚ → List ℚ → σ → σ) (st : σ),
          applyTrace opt [(7, specElementwiseMean 2 [[1, 3], [3, 5]])] st
            = opt 7 (specElementwiseMean 2 [[1, 3], [3, 5]]) st) :=
  ⟨⟨by decide, by decide⟩,
   accumulation_equivalence 7 2 [[1, 3], [3, 5]] (by decide) (by decide)⟩

/-- C7: with `apply_updates` true the wrapped optimizer is handed the
freshly accumulated (pre-reset) buffer values and the resulting buffers are
all exactly zero; with `apply_updates` false no reset (and no optimizer
call) occurs. -/
theorem buffer_reset_after_apply (scaler lr : ℚ) (grads : List ℚ) (s : AccumState)
    (h : grads.length = s.accum.length) :
    GradientAccumulationOptimizerWrapper.call scaler lr grads true s
      = .ok ⟨List.replicate s.accum.length 0,
             s.calls ++ [(lr, accumStep scaler s.accum grads)]⟩
  ∧ (∀ x ∈ List.replicate s.accum.length (0 : ℚ), x = 0)
  ∧ GradientAccumulationOptimizerWrapper.call scaler lr grads false s
      = .ok ⟨accumStep scaler s.accum grads, s.calls⟩ := by
  exact ⟨wrapper_call_true scaler lr grads s h,
         fun x hx => List.eq_of_mem_replicate hx,
         wrapper_call_false scaler lr grads s h⟩

/-- Witness for `buffer_reset_after_apply` on buffers `[1,1]`,
gradients `[2,4]`, scaler `1/2`. -/
theorem buffer_reset_after_apply_witness :
    ([(2 : ℚ), 4].length = (AccumState.mk [1, 1] []).accum.length)
    ∧ (GradientAccumulationOptimizerWrapper.call (1/2) 1 [2, 4] true ⟨[1, 1], []⟩
        = .ok ⟨List.replicate (AccumState.mk [(1 : ℚ), 1] []).accum.length 0,
               [] ++ [(1, accumStep (1/2) [1, 1] [2, 4])]⟩
      ∧ (∀ x ∈ List.replicate (AccumState.mk [(1 : ℚ), 1] []).accum.length (0 : ℚ), x = 0)
      ∧ GradientAccumulationOptimizerWrapper.call (1/2) 1 [2, 4] false ⟨[1, 1], []⟩
        = .ok ⟨accumStep (1/2) [1, 1] [2, 4], []⟩) :=
  ⟨rfl, buffer_reset_after_apply (1/2) 1 [2, 4] ⟨[1, 1], []⟩ rfl⟩

/-! ### SGLD optimizer

Embedding of `CustomSGLD` (imagenet_train.py, lines 92-124).  The JAX RNG
key type and the primitives `jax.random.split` / `jax.random.normal` are
external collaborators, taken as parameters `split` and `normal`; tensors
are flattened to one scalar per parameter. -/

/-- Fixed total-dataset example count baked into the update
(the literal `1281167` on lines 121 and 165). -/
def trainSize : ℝ := 1281167

/-- Per-parameter loop body of `CustomSGLD.__call__` (lines 115-121) over
the zipped gradient/parameter list: split the key, draw noise from the
subkey, persist the new key, and apply
`p -= 1281167 * step_size * g + noise * sqrt(2 * step_size)`. -/
noncomputable def sgldLoop {κ : Type} (split : κ → κ × κ) (normal : κ → ℝ)
    (stepSize : ℝ) : κ → List (ℝ × ℝ) → κ × List ℝ
  | rng, [] => (rng, [])
  | rng, (g, p) :: rest =>
    let r := sgldLoop split normal stepSize (split rng).1 rest
    (r.1, (p - (trainSize * stepSize * g
        + normal (split rng).2 * Real.sqrt (2 * stepSize))) :: r.2)

/-- Embedding of `CustomSGLD.__call__` (lines 105-121): assert the
gradient/variable count match, then run the update loop, returning the new
RNG key and parameter values. -/
noncomputable def CustomSGLD.call {κ : Type} (split : κ → κ × κ) (normal : κ → ℝ)
    (stepSize : ℝ) (grads : List ℝ) (rng : κ) (params : List ℝ) :
    Except String (κ × List ℝ) :=
  if grads.length = params.length then
    .ok (sgldLoop split normal stepSize rng (grads.zip params))
  else .error "Mismatch between gradients and variables"

/-- The RNG stream key after `n` split-and-advance steps. -/
def rngAdvance {κ : Type} (split : κ → κ × κ) : ℕ → κ → κ
  | 0, k => k
  | n + 1, k => rngAdvance split n (split k).1

lemma sgldLoop_spec {κ : Type} (split : κ → κ × κ) (normal : κ → ℝ) (stepSize : ℝ) :
    ∀ (pairs : List (ℝ × ℝ)) (rng : κ),
      sgldLoop split normal stepSize rng pairs
        = (rngAdvance split pairs.length rng,
           (List.range pairs.length).map (fun i =>
             (pairs.getD i (0, 0)).2 - (trainSize * stepSize * (pairs.getD i (0, 0)).1
               + normal (split (rngAdvance split i rng)).2 * Real.sqrt (2 * stepSize)))) := by
  intro pairs
  induction pairs with
  | nil => intro rng; rfl
  | cons gp rest ih =>
    intro rng
    simp only [sgldLoop, List.length_cons, ih ((split rng).1)]
    refine congrArg₂ Prod.mk rfl ?_
    rw [List.range_succ_eq_map, List.map_cons, List.map_map]
    rfl

/-- C4: an aligned SGLD update replaces each parameter `p_i` by
`p_i - (N * stepSize * g_i + n_i * sqrt(2 * stepSize))`, where the noise
`n_i` is drawn from the subkey of the `i`-th split of the RNG stream (one
draw per parameter, in order), and the stream itself ends advanced exactly
`grads.length` times. -/
theorem sgld_update_spec {κ : Type} (split : κ → κ × κ) (normal : κ → ℝ)
    (stepSize : ℝ) (grads params : List ℝ) (rng : κ)
    (h : grads.length = params.length) :
    CustomSGLD.call split normal stepSize grads rng params
      = .ok (rngAdvance split grads.length rng,
          (List.range grads.length).map (fun i =>
            params.getD i 0 - (trainSize * stepSize * grads.getD i 0
              + normal (split (rngAdvance split i rng)).2 * Real.sqrt (2 * stepSize)))) := by
  unfold CustomSGLD.call
  rw [if_pos h, sgldLoop_spec]
  have hzl : (grads.zip params).length = grads.length := by
    rw [List.length_zip, h, min_self]
  refine congrArg Except.ok (congrArg₂ Prod.mk (by rw [hzl]) ?_)
  rw [hzl]
  refine List.map_congr_left ?_
  intro i hi
  have hi' : i < grads.length := by simpa using hi
  have hp : i < params.length := h ▸ hi'
  have hz : (grads.zip params).getD i (0, 0) = (grads.getD i 0, params.getD i 0) := by
    rw [List.getD_eq_getElem _ _ (by rw [hzl]; exact hi'),
      List.getD_eq_getElem _ _ hi', List.getD_eq_getElem _ _ hp]
    exact List.getElem_zip
  rw [hz]

/-- Concrete toy key-splitting model over `ℕ`, for evaluating the SGLD
update theorem at an explicit input. -/
def natSplit : ℕ → ℕ × ℕ := fun k => (k + 1, k + 100)

/-- Concrete toy noise function over `ℕ` keys. -/
noncomputable def natNormal : ℕ → ℝ := fun k => (k : ℝ)

/-- Witness for `sgld_update_spec` with two parameters, a concrete key
model over `ℕ`, and step size `1`. -/
theorem sgld_update_spec_witness :
    ([(1 : ℝ), 2].length = [(10 : ℝ), 20].length)
    ∧ CustomSGLD.call natSplit natNormal 1 [1, 2] 0 [10, 20]
      = .ok (rngAdvance natSplit [(1 : ℝ), 2].length 0,
          (List.range [(1 : ℝ), 2].length).map (fun i =>
            [(10 : ℝ), 20].getD i 0 - (trainSize * 1 * [(1 : ℝ), 2].getD i 0
              + natNormal (natSplit (rngAdvance natSplit i 0)).2
                * Real.sqrt (2 * 1)))) :=
  ⟨rfl, sgld_update_spec natSplit natNormal 1 [1, 2] [10, 20] 0 rfl⟩

/-! ### RNG seeding of the custom optimizers

`main` (lines 459-464) seeds `objax.random.DEFAULT_GENERATOR` from the
externally supplied `rnd_seed`, while `CustomSGLD.__init__` (line 103) and
`CustomPreconditionedSGLD.__init__` (line 143) both initialize their own
RNG stream as `jax.random.key(42)`, a fixed constant.  Keys are modelled as
naturals, `jax.random.key 42` as the value `42`. -/

/-- RNG-relevant state established by `main` plus optimizer construction:
the seed handed to the default generator and the constant initial stream
keys of the two custom optimizers. -/
structure RunRngInit where
  defaultGeneratorSeed : Int
  sgldKey : ℕ
  psgldKey : ℕ
  deriving DecidableEq, Repr

/-- Embedding of the seeding performed by `main` together with
`CustomSGLD.__init__` / `CustomPreconditionedSGLD.__init__`: the supplied
seed reaches only the default generator; both optimizers take key `42`. -/
def mainRngInit (rnd_seed : Int) : RunRngInit :=
  ⟨rnd_seed, 42, 42⟩

/-- C10: two runs differing only in the externally supplied seed hold
identical SGLD/PSGLD stream keys (both `42`), and therefore any SGLD update
call made from the freshly constructed optimizer produces identical results
in the two runs: the injected noise does not vary with the seed. -/
theorem sgld_noise_independent_of_seed (s1 s2 : Int) :
    (mainRngInit s1).sgldKey = (mainRngInit s2).sgldKey
  ∧ (mainRngInit s1).psgldKey = (mainRngInit s2).psgldKey
  ∧ ∀ (split : ℕ → ℕ × ℕ) (normal : ℕ → ℝ) (stepSize : ℝ)
      (grads params : List ℝ),
      CustomSGLD.call split normal stepSize grads (mainRngInit s1).sgldKey params
        = CustomSGLD.call split normal stepSize grads (mainRngInit s2).sgldKey params :=
  ⟨rfl, rfl, fun _ _ _ _ _ => rfl⟩

/-! ### Preconditioned SGLD optimizer

Embedding of `CustomPreconditionedSGLD` (imagenet_train.py, lines 127-168).
`alpha` is the fixed `0.95`, `lambda_small` the fixed `1e-8`; `momentum_vars`
are zero-initialized (line 141).  Per-parameter step with the noise value
passed explicitly (the RNG-stream discipline is identical to `CustomSGLD`
and is modelled there). -/

/-- The momentum parameter `self.alpha` (line 138). -/
noncomputable def psgldAlpha : ℝ := 0.95

/-- The numeric-stability constant `self.lambda_small` (line 139). -/
noncomputable def psgldLambda : ℝ := 1e-8

/-- Zero-initialized squared-gradient moving averages
(`self.momentum_vars`, line 141), one per trainable variable. -/
def CustomPreconditionedSGLD.initMomentum (n : ℕ) : List ℝ :=
  List.replicate n 0

/-- Momentum update `m = alpha * m + (1 - alpha) * g**2` (line 161). -/
noncomputable def psgldNewM (m g : ℝ) : ℝ :=
  psgldAlpha * m + (1 - psgldAlpha) * g ^ 2

/-- Preconditioner `velocity = 1 / (sqrt(m) + lambda_small)` (line 162),
as a function of the (already updated) moving average. -/
noncomputable def psgldVelocityOf (m2 : ℝ) : ℝ :=
  (Real.sqrt m2 + psgldLambda)⁻¹

/-- Per-parameter body of `CustomPreconditionedSGLD.__call__`
(lines 160-165): update the moving average first, read the preconditioner
from the updated average, then apply
`p -= 1281167 * velocity * step_size * g + noise * sqrt(2 * step_size * velocity)`.
Returns the new `(m, p)` pair. -/
noncomputable def psgldStep (stepSize g noise m p : ℝ) : ℝ × ℝ :=
  (psgldNewM m g,
   p - (trainSize * psgldVelocityOf (psgldNewM m g) * stepSize * g
     + noise * Real.sqrt (2 * stepSize * psgldVelocityOf (psgldNewM m g))))

/-- C2 counterexample: on the first update (zero-initialized `m`) with the
non-zero gradient `1`, unit step size, zero noise and parameter `0`, the
parameter update actually performed differs from the one the claimed
preconditioner `v = 1/(0 + lambda)` would produce: the moving average is
updated to `(1-alpha)*g^2` before the preconditioner is read. -/
theorem psgld_first_velocity_counterexample :
    (psgldStep 1 1 0 0 0).2
      ≠ 0 - (trainSize * (0 + psgldLambda)⁻¹ * 1 * 1
          + 0 * Real.sqrt (2 * 1 * (0 + psgldLambda)⁻¹)) := by
  intro h
  simp only [psgldStep, zero_mul, add_zero, mul_one, zero_sub, neg_inj] at h
  have htr : (trainSize : ℝ) ≠ 0 := by norm_num [trainSize]
  have hv : psgldVelocityOf (psgldNewM 0 1) = (0 + psgldLambda)⁻¹ :=
    mul_left_cancel₀ htr h
  have hm : psgldNewM 0 1 = 1 / 20 := by
    norm_num [psgldNewM, psgldAlpha]
  rw [hm, psgldVelocityOf, zero_add] at hv
  have hd : Real.sqrt (1 / 20) + psgldLambda = psgldLambda := inv_injective hv
  have hs : Real.sqrt (1 / 20) = 0 := by linarith
  rw [Real.sqrt_eq_zero'] at hs
  norm_num at hs

/-- C2 amended: the first PSGLD update (with `m` initialized to zero, as
`CustomPreconditionedSGLD.initMomentum` records) uses the effective
preconditioner `v = 1/(sqrt((1-alpha)*g^2) + lambda)` — the moving average
is updated to `(1-alpha)*g^2` before `v` is read — and its denominator is
strictly positive, so no division by zero occurs for any gradient. -/
theorem psgld_first_velocity (stepSize g noise p : ℝ) (n : ℕ) :
    (∀ m ∈ CustomPreconditionedSGLD.initMomentum n, m = 0)
  ∧ psgldStep stepSize g noise 0 p
      = ((1 - psgldAlpha) * g ^ 2,
         p - (trainSize * (Real.sqrt ((1 - psgldAlpha) * g ^ 2) + psgldLambda)⁻¹
                * stepSize * g
           + noise * Real.sqrt (2 * stepSize
                * (Real.sqrt ((1 - psgldAlpha) * g ^ 2) + psgldLambda)⁻¹)))
  ∧ 0 < Real.sqrt ((1 - psgldAlpha) * g ^ 2) + psgldLambda := by
  refine ⟨fun m hm => List.eq_of_mem_replicate hm, ?_, ?_⟩
  · simp [psgldStep, psgldNewM, psgldVelocityOf]
  · have h1 : (0 : ℝ) ≤ Real.sqrt ((1 - psgldAlpha) * g ^ 2) := Real.sqrt_nonneg _
    have h2 : (0 : ℝ) < psgldLambda := by norm_num [psgldLambda]
    linarith

/-! ### Logit clipping, model dispatch, experiment construction

Embeddings of `util.construct_logit_clip_fn` (util.py, lines 4-14),
`make_model` (imagenet_train.py, lines 172-194) and the validation
performed by `Experiment.__init__` (lines 200-267). -/

/-- The sigmoid `1 / (1 + exp(-x))` used by the clipping functions
(`jax.nn.sigmoid`, an external collaborator). -/
noncomputable def jaxSigmoid (x : ℝ) : ℝ := (1 + Real.exp (-x))⁻¹

/-- Embedding of `util.construct_logit_clip_fn` (util.py): returns the
clipping function for a known name, fails for any other name. -/
noncomputable def construct_logit_clip_fn (clip_fn : String) : Except String (ℝ → ℝ) :=
  if clip_fn = "none" then .ok (fun x => x)
  else if clip_fn = "tanh" then .ok (fun x => Real.tanh x)
  else if clip_fn = "sigmoid" then .ok (fun x => 2 * jaxSigmoid x)
  else if clip_fn = "blf" then
    .ok (fun x => 2 * (x * jaxSigmoid x + jaxSigmoid x - x * jaxSigmoid x ^ 2) - 1)
  else .error ("Unknown clip_fn " ++ clip_fn)

/-- The supported model architectures of `make_model`. -/
inductive ModelKind where
  | resnet18 | resnet50 | resnet101 | resnet152 | resnet200
  deriving DecidableEq, Repr

/-- Model of Python str.lower (an external builtin): lowercase each
character. -/
def lowerString (s : String) : String := ⟨s.data.map Char.toLower⟩

/-- Embedding of `make_model` (lines 172-194): dispatch on the lowercased
model name, fail for any other name. -/
def make_model (model_name : String) : Except String ModelKind :=
  if lowerString model_name = "resnet200" then .ok .resnet200
  else if lowerString model_name = "resnet152" then .ok .resnet152
  else if lowerString model_name = "resnet101" then .ok .resnet101
  else if lowerString model_name = "resnet50" then .ok .resnet50
  else if lowerString model_name = "resnet18" then .ok .resnet18
  else .error ("Unsupported model type: " ++ lowerString model_name)

/-- The optimizer variants dispatched in `Experiment.__init__`
(lines 232-243). -/
inductive OptimizerKind where
  | momentum | adam | sgld | psgld
  deriving DecidableEq, Repr

/-- The command-line flags consulted by the validation logic of
`Experiment.__init__` and `Experiment.learning_rate`. -/
structure TrainFlags where
  model : String
  optimizer : String
  lr_schedule : String
  logit_clip : String
  grad_acc_steps : Int
  deriving DecidableEq, Repr

/-- Outcome of a successful `Experiment.__init__`, as far as validation is
concerned: the constructed clip function, model, optimizer kind, and
whether the optimizer was wrapped in the gradient-accumulation wrapper. -/
structure InitResult where
  clipFn : ℝ → ℝ
  modelKind : ModelKind
  optKind : OptimizerKind
  wrapped : Bool

/-- Embedding of the validation in `Experiment.__init__` (lines 200-267),
in source order: logit-clip construction (line 209), model construction
(line 215), optimizer dispatch (lines 232-243), gradient-accumulation
wrapping and the `grad_acc_steps` check (lines 244-247).  The learning-rate
schedule name is never consulted here. -/
noncomputable def experimentInit (f : TrainFlags) : Except String InitResult := do
  let clip ← construct_logit_clip_fn f.logit_clip
  let model ← make_model f.model
  let opt ←
    if f.optimizer = "momentum" then .ok OptimizerKind.momentum
    else if f.optimizer = "adam" then .ok OptimizerKind.adam
    else if f.optimizer = "sgld" then .ok OptimizerKind.sgld
    else if f.optimizer = "psgld" then .ok OptimizerKind.psgld
    else .error ("Unsupported optimizer: " ++ f.optimizer)
  let wrapped ←
    if f.grad_acc_steps > 1 then .ok true
    else if f.grad_acc_steps ≠ 1 then
      .error "--grad_acc_steps has to be greater or equal to 1."
    else .ok false
  return ⟨clip, model, opt, wrapped⟩

/-- Embedding of `Experiment.learning_rate` (lines 316-333): clamp the
fractional epoch to `num_train_epochs`, then dispatch on the schedule name
(`cos`: linear warmup then cosine decay; `fixed`: linear warmup then
constant), failing on any other name. -/
noncomputable def learningRate (schedule : String) (base warmup total : ℝ)
    (epoch : ℝ) : Except String ℝ :=
  if schedule = "cos" then
    .ok (base * (if min epoch total < warmup then min epoch total / warmup
      else 0.5 * (1 + Real.cos (Real.pi * (min epoch total - warmup) / (total - warmup)))))
  else if schedule = "fixed" then
    .ok (base * (if min epoch total < warmup then min epoch total / warmup else 1))
  else .error ("Unsupported LR schedule: " ++ schedule)

/-- C3 counterexample: constructing the experiment with the unsupported
schedule name `poly` succeeds — no error is raised at construction time,
contradicting the claim that unsupported schedule names fail at
construction. -/
theorem schedule_unchecked_at_construction :
    (experimentInit ⟨"resnet18", "momentum", "poly", "none", 1⟩).isOk = true := rfl

/-- C3 amended: an unsupported schedule name is only rejected when the
learning rate is first computed (which happens inside the first training
step), with the `Unsupported LR schedule` error; experiment construction
never consults the schedule name at all. -/
theorem schedule_validation_at_first_use (name : String)
    (h1 : name ≠ "cos") (h2 : name ≠ "fixed") :
    (∀ base warmup total epoch : ℝ,
        learningRate name base warmup total epoch
          = .error ("Unsupported LR schedule: " ++ name))
  ∧ ∀ (f : TrainFlags) (other : String),
      experimentInit { f with lr_schedule := name }
        = experimentInit { f with lr_schedule := other } := by
  constructor
  · intro base warmup total epoch
    unfold learningRate
    rw [if_neg h1, if_neg h2]
  · intro f other
    cases f
    rfl

/-- Witness for `schedule_validation_at_first_use` at the name `poly`. -/
theorem schedule_validation_at_first_use_witness :
    ("poly" ≠ "cos") ∧ ("poly" ≠ "fixed")
    ∧ ((∀ base warmup total epoch : ℝ,
          learningRate "poly" base warmup total epoch
            = .error ("Unsupported LR schedule: " ++ "poly"))
      ∧ ∀ (f : TrainFlags) (other : String),
          experimentInit { f with lr_schedule := "poly" }
            = experimentInit { f with lr_schedule := other }) :=
  ⟨by decide, by decide,
   schedule_validation_at_first_use "poly" (by decide) (by decide)⟩

/-- C8 counterexample: with `warmup_epochs = num_train_epochs = 1` (so
`warmup_epochs > 0` holds) and `base = 1`, the cosine schedule does not
return `0` at `epoch = num_train_epochs`. -/
theorem schedule_continuity_counterexample :
    learningRate "cos" 1 1 1 1 ≠ Except.ok 0 := by
  unfold learningRate
  rw [if_pos rfl, min_self, if_neg (lt_irrefl (1 : ℝ))]
  simp only [sub_self, mul_zero, zero_div, Real.cos_zero]
  intro h
  rw [Except.ok.injEq] at h
  norm_num at h

/-- C8 amended: for `0 < warmup_epochs < num_train_epochs`, both schedules
give `rate(0) = 0` and `rate(warmup_epochs) = base_rate` exactly, and the
cosine schedule gives `rate(num_train_epochs) = 0`. -/
theorem schedule_continuity (base warmup total : ℝ)
    (h0 : 0 < warmup) (h1 : warmup < total) :
    learningRate "cos" base warmup total 0 = .ok 0
  ∧ learningRate "fixed" base warmup total 0 = .ok 0
  ∧ learningRate "cos" base warmup total warmup = .ok base
  ∧ learningRate "fixed" base warmup total warmup = .ok base
  ∧ learningRate "cos" base warmup total total = .ok 0 := by
  have htot : (0 : ℝ) < total := h0.trans h1
  have hmin0 : min (0 : ℝ) total = 0 := min_eq_left htot.le
  have hminw : min warmup total = warmup := min_eq_left h1.le
  have hfx : ("fixed" : String) ≠ "cos" := by decide
  refine ⟨?_, ?_, ?_, ?_, ?_⟩
  · unfold learningRate
    rw [if_pos rfl, hmin0, if_pos h0, zero_div, mul_zero]
  · unfold learningRate
    rw [if_neg hfx, if_pos rfl, hmin0, if_pos h0, zero_div, mul_zero]
  · unfold learningRate
    rw [if_pos rfl, hminw, if_neg (lt_irrefl warmup)]
    simp only [sub_self, mul_zero, zero_div, Real.cos_zero]
    norm_num
  · unfold learningRate
    rw [if_neg hfx, if_pos rfl, hminw, if_neg (lt_irrefl warmup), mul_one]
  · unfold learningRate
    rw [if_pos rfl, min_self, if_neg (not_lt.mpr h1.le),
      mul_div_assoc, div_self (sub_ne_zero_of_ne h1.ne'), mul_one, Real.cos_pi]
    norm_num

/-- Witness for `schedule_continuity` with `base = 5`, `warmup = 1`,
`total = 2`. -/
theorem schedule_continuity_witness :
    ((0 : ℝ) < 1) ∧ ((1 : ℝ) < 2)
    ∧ (learningRate "cos" 5 1 2 0 = .ok 0
      ∧ learningRate "fixed" 5 1 2 0 = .ok 0
      ∧ learningRate "cos" 5 1 2 1 = .ok 5
      ∧ learningRate "fixed" 5 1 2 1 = .ok 5
      ∧ learningRate "cos" 5 1 2 2 = .ok 0) :=
  ⟨by norm_num, by norm_num, schedule_continuity 5 1 2 (by norm_num) (by norm_num)⟩

/-! ### Training-loop step counters

Embedding of the step/epoch bookkeeping in `Experiment.train_and_eval`
(imagenet_train.py, lines 391-401): the nested loops over `big_step` and
`cur_step`, the `apply_updates` flag, and the fractional-epoch computation
`next_update_step / steps_per_epoch`. -/

/-- Python `range(start_step, total_train_steps, eval_every_n_steps)`
(line 391). -/
def bigStepRange (start total every : ℕ) : List ℕ :=
  List.range' start ((total - start + every - 1) / every) every

/-- Python `range(big_step + 1, big_step + eval_every_n_steps + 1)`
(line 396): the virtual steps of one eval window. -/
def innerSteps (big_step every : ℕ) : List ℕ :=
  List.range' (big_step + 1) every

/-- The `(cur_step, apply_updates)` pairs produced by the training loop,
with `apply_updates = (cur_step % grad_acc_steps == 0)` (line 401). -/
def virtualStepsWithFlags (start total every k : ℕ) : List (ℕ × Bool) :=
  (bigStepRange start total every).flatMap (fun b =>
    (innerSteps b every).map (fun s => (s, s % k == 0)))

/-- `next_update_step = (cur_step + grad_acc_steps - 1) // grad_acc_steps
* grad_acc_steps` (line 399). -/
def nextUpdateStep (s k : ℕ) : ℕ :=
  (s + k - 1) / k * k

/-- `cur_epoch = next_update_step / steps_per_epoch` (line 400), in exact
arithmetic over `ℚ`. -/
def fracEpoch (s k : ℕ) (steps_per_epoch : ℚ) : ℚ :=
  (nextUpdateStep s k : ℚ) / steps_per_epoch

example : virtualStepsWithFlags 0 4 2 2
    = [(1, false), (2, true), (3, false), (4, true)] := by decide

example : nextUpdateStep 5 4 = 8 := by decide

/-- C5: every `apply_updates` flag emitted by the training loop for a
virtual step `s` is true exactly when `s` is a multiple of
`grad_acc_steps`. -/
theorem apply_updates_iff_multiple (start total every k s : ℕ) (f : Bool)
    (hmem : (s, f) ∈ virtualStepsWithFlags start total every k) :
    f = true ↔ s % k = 0 := by
  simp only [virtualStepsWithFlags, List.mem_flatMap, List.mem_map] at hmem
  obtain ⟨b, _, s', _, hpair⟩ := hmem
  obtain ⟨hs, hf⟩ := Prod.mk.injEq .. ▸ hpair
  subst hs
  rw [← hf]
  exact beq_iff_eq

/-- Witness for `apply_updates_iff_multiple`: with `grad_acc_steps = 2`,
virtual step `2` of a 4-step run carries the flag `true`. -/
theorem apply_updates_iff_multiple_witness :
    ((2, true) ∈ virtualStepsWithFlags 0 4 2 2) ∧ (true = true ↔ 2 % 2 = 0) :=
  ⟨by decide, apply_updates_iff_multiple 0 4 2 2 2 true (by decide)⟩

lemma nextUpdateStep_closed_form (k s : ℕ) (hk : 0 < k) (hs : 1 ≤ s) :
    nextUpdateStep s k = ((s - 1) / k + 1) * k := by
  unfold nextUpdateStep
  have h : s + k - 1 = s - 1 + k := by omega
  rw [h, Nat.add_div_right _ hk]

/-- C6: for `grad_acc_steps = k >= 1` and positive `steps_per_epoch`, the
numerator of the fractional epoch is exactly the least multiple of `k`
that is at least the virtual step `s` ("`s` rounded up to the next multiple
of `k`"); the fractional epoch agrees across all virtual steps of one
accumulation cycle, and is monotonically non-decreasing in `s`. -/
theorem frac_epoch_spec (k : ℕ) (steps_per_epoch : ℚ) (hk : 1 ≤ k)
    (hspe : 0 < steps_per_epoch) :
    (∀ s, 1 ≤ s → k ∣ nextUpdateStep s k ∧ s ≤ nextUpdateStep s k ∧
        ∀ m, k ∣ m → s ≤ m → nextUpdateStep s k ≤ m)
  ∧ (∀ s t, 1 ≤ s → 1 ≤ t → (s - 1) / k = (t - 1) / k →
        fracEpoch s k steps_per_epoch = fracEpoch t k steps_per_epoch)
  ∧ (∀ s t, s ≤ t →
        fracEpoch s k steps_per_epoch ≤ fracEpoch t k steps_per_epoch) := by
  have hk0 : 0 < k := hk
  refine ⟨?_, ?_, ?_⟩
  · intro s hs
    rw [nextUpdateStep_closed_form k s hk0 hs]
    refine ⟨dvd_mul_left k _, ?_, ?_⟩
    · have h1 : s - 1 < (s - 1) / k * k + k := Nat.lt_div_mul_add hk0
      have h2 : ((s - 1) / k + 1) * k = (s - 1) / k * k + k := by ring
      omega
    · intro m hdvd hle
      obtain ⟨j, rfl⟩ := hdvd
      have hlt : s - 1 < k * j := lt_of_lt_of_le (Nat.sub_lt hs one_pos) hle
      have hdj : (s - 1) / k < j := by
        rw [Nat.div_lt_iff_lt_mul hk0, Nat.mul_comm]
        exact hlt
      calc ((s - 1) / k + 1) * k ≤ j * k := Nat.mul_le_mul_right k hdj
        _ = k * j := Nat.mul_comm j k
  · intro s t hs ht hq
    unfold fracEpoch
    rw [nextUpdateStep_closed_form k s hk0 hs, nextUpdateStep_closed_form k t hk0 ht, hq]
  · intro s t hst
    have hmono : nextUpdateStep s k ≤ nextUpdateStep t k := by
      unfold nextUpdateStep
      exact Nat.mul_le_mul_right k (Nat.div_le_div_right (by omega))
    unfold fracEpoch
    rw [div_le_div_iff₀ hspe hspe]
    exact mul_le_mul_of_nonneg_right (Nat.cast_le.mpr hmono) hspe.le

/-- Witness for `frac_epoch_spec` at `grad_acc_steps = 2`,
`steps_per_epoch = 3`. -/
theorem frac_epoch_spec_witness :
    ((1 : ℕ) ≤ 2) ∧ ((0 : ℚ) < 3)
    ∧ ((∀ s, 1 ≤ s → 2 ∣ nextUpdateStep s 2 ∧ s ≤ nextUpdateStep s 2 ∧
          ∀ m, 2 ∣ m → s ≤ m → nextUpdateStep s 2 ≤ m)
      ∧ (∀ s t, 1 ≤ s → 1 ≤ t → (s - 1) / 2 = (t - 1) / 2 →
          fracEpoch s 2 3 = fracEpoch t 2 3)
      ∧ (∀ s t, s ≤ t → fracEpoch s 2 3 ≤ fracEpoch t 2 3)) :=
  ⟨by decide, by norm_num, frac_epoch_spec 2 3 (by decide) (by norm_num)⟩

/-! ### Checkpoint variable collection

Embedding of the objax variable-collection semantics relevant to
checkpointing: `Module.vars()` gathers `TrainVar`/`TrainRef`/`StateVar`
attributes (recursing into module lists) and skips plain Python/JAX-array
attributes.  `Experiment.__init__` (line 259) builds
`all_vars = model_vars + optimizer.vars() + DEFAULT_GENERATOR.vars()` and
`train_and_eval` (line 437) passes exactly this collection to
`checkpoint.save`. -/

/-- An attribute of an objax module, as seen by variable collection:
collected variable references (`TrainRef` / `StateVar`), plain
(non-variable) fields such as raw JAX arrays, and nested module lists. -/
inductive ObjaxAttr where
  | trainRef (name : String)
  | stateVar (name : String)
  | plainField (name : String)
  | moduleList (name : String) (elems : List ObjaxAttr)

mutual

/-- Variable paths collected from a single attribute. -/
def collectVarsAttr : ObjaxAttr → List (List String)
  | .trainRef n => [[n]]
  | .stateVar n => [[n]]
  | .plainField _ => []
  | .moduleList m es => (collectVarsAttrs es).map (fun p => m :: p)

/-- Variable paths collected from an attribute list, in declaration
order. -/
def collectVarsAttrs : List ObjaxAttr → List (List String)
  | [] => []
  | a :: r => collectVarsAttr a ++ collectVarsAttrs r

end

/-- Attributes declared by `CustomSGLD.__init__` (lines 101-103), in
order: the `train_vars` module list of `TrainRef`s and the plain attribute
`self.rng = jax.random.key(42)`. -/
def CustomSGLD.attrs (paramNames : List String) : List ObjaxAttr :=
  [.moduleList "train_vars" (paramNames.map .trainRef),
   .plainField "rng"]

/-- Attributes declared by `CustomPreconditionedSGLD.__init__`
(lines 136-143), in order: `train_vars`, the `alpha` and `lambda_small`
state variables, the zero-initialized `momentum_vars` state list, and the
plain attribute `self.rng = jax.random.key(42)`. -/
def CustomPreconditionedSGLD.attrs (paramNames : List String) : List ObjaxAttr :=
  [.moduleList "train_vars" (paramNames.map .trainRef),
   .stateVar "alpha",
   .stateVar "lambda_small",
   .moduleList "momentum_vars" (paramNames.map .stateVar),
   .plainField "rng"]

/-- The state collection handed to `checkpoint.save` for a run: model
variables, the optimizer's collected variables, and the default
generator's variables (line 259). -/
def allVarsSaved (modelVars : List (List String)) (optAttrs : List ObjaxAttr)
    (generatorVars : List (List String)) : List (List String) :=
  modelVars ++ collectVarsAttrs optAttrs ++ generatorVars

example : collectVarsAttrs (CustomSGLD.attrs ["w", "b"])
    = [["train_vars", "w"], ["train_vars", "b"]] := by decide

lemma collect_trainRefs (ps : List String) :
    collectVarsAttrs (ps.map ObjaxAttr.trainRef) = ps.map (fun p => [p]) := by
  induction ps with
  | nil => rfl
  | cons p t ih => simp [collectVarsAttrs, collectVarsAttr, ih]

lemma collect_stateVars (ps : List String) :
    collectVarsAttrs (ps.map ObjaxAttr.stateVar) = ps.map (fun p => [p]) := by
  induction ps with
  | nil => rfl
  | cons p t ih => simp [collectVarsAttrs, collectVarsAttr, ih]

/-- C9 (code evaluation): for both custom optimizers, the variable
collection contributed to the checkpoint state consists of the trainable
parameter references (plus, for PSGLD, `alpha`, `lambda_small` and the
momentum averages); the evolving RNG stream key — the plain attribute
`rng` — is never part of the collection that `checkpoint.save` receives,
for any model and generator variables. -/
theorem rng_key_not_in_checkpoint (paramNames : List String)
    (modelVars generatorVars : List (List String)) :
    collectVarsAttrs (CustomSGLD.attrs paramNames)
        = paramNames.map (fun p => ["train_vars", p])
  ∧ collectVarsAttrs (CustomPreconditionedSGLD.attrs paramNames)
        = paramNames.map (fun p => ["train_vars", p])
            ++ [["alpha"], ["lambda_small"]]
            ++ paramNames.map (fun p => ["momentum_vars", p])
  ∧ ["rng"] ∉ collectVarsAttrs (CustomSGLD.attrs paramNames)
  ∧ (["rng"] ∈ allVarsSaved modelVars (CustomSGLD.attrs paramNames) generatorVars
      → ["rng"] ∈ modelVars ∨ ["rng"] ∈ generatorVars)
  ∧ ["rng"] ∉ collectVarsAttrs (CustomPreconditionedSGLD.attrs paramNames) := by
  have hsgld : collectVarsAttrs (CustomSGLD.attrs paramNames)
      = paramNames.map (fun p => ["train_vars", p]) := by
    simp only [CustomSGLD.attrs, collectVarsAttrs, collectVarsAttr,
      collect_trainRefs, List.map_map, Function.comp_def, List.append_nil]
  have hpsgld : collectVarsAttrs (CustomPreconditionedSGLD.attrs paramNames)
      = paramNames.map (fun p => ["train_vars", p])
          ++ [["alpha"], ["lambda_small"]]
          ++ paramNames.map (fun p => ["momentum_vars", p]) := by
    simp only [CustomPreconditionedSGLD.attrs, collectVarsAttrs, collectVarsAttr,
      collect_trainRefs, collect_stateVars, List.map_map, Function.comp_def,
      List.append_nil, List.append_assoc, List.cons_append, List.nil_append,
      List.singleton_append]
  have hlen : ∀ (hd : String) (p : String),
      (([hd, p] : List String) = ["rng"]) → False := by
    intro hd p h
    simpa using congrArg List.length h
  have hnot1 : ["rng"] ∉ collectVarsAttrs (CustomSGLD.attrs paramNames) := by
    rw [hsgld]
    intro h
    obtain ⟨p, _, hp⟩ := List.mem_map.1 h
    exact hlen _ _ hp
  refine ⟨hsgld, hpsgld, hnot1, ?_, ?_⟩
  · intro h
    rcases List.mem_append.1 h with h1 | h2
    · rcases List.mem_append.1 h1 with h3 | h4
      · exact Or.inl h3
      · exact absurd h4 hnot1
    · exact Or.inr h2
  · rw [hpsgld]
    intro h
    rcases List.mem_append.1 h with h1 | h2
    · rcases List.mem_append.1 h1 with h3 | h4
      · obtain ⟨p, _, hp⟩ := List.mem_map.1 h3
        exact hlen _ _ hp
      · rcases List.mem_cons.1 h4 with h5 | h6
        · exact absurd h5.symm (by decide)
        · rcases List.mem_cons.1 h6 with h7 | h8
          · exact absurd h7.symm (by decide)
          · simp at h8
    · obtain ⟨p, _, hp⟩ := List.mem_map.1 h2
      exact hlen _ _ hp
